import Mathlib

/-!
Shallow embedding of the trait-obligation candidate assembly and selection
engine from compiler/rustc_trait_selection/src/traits/select/candidate_assembly.rs.
External collaborators (inference oracle, impl registry, coherence oracle,
candidate evaluation, specialization ordering) are modelled as oracle fields of
a context record; the control flow of the file itself is translated directly.
-/

namespace CandidateAssembly

/-- Kinds of inference variables (ty::InferTy, restricted to the three used here). -/
inductive InferTy where
  | TyVar
  | IntVar
  | FloatVar
  deriving DecidableEq, Repr

/-- hir::Movability of a generator. -/
inductive Movability where
  | Static
  | Movable
  deriving DecidableEq, Repr

/-- ty::DynKind: ordinary trait objects vs dyn-star. -/
inductive DynKind where
  | Dyn
  | DynStar
  deriving DecidableEq, Repr

/-- ty::ClosureKind for the Fn family of traits. -/
inductive ClosureKind where
  | Fn
  | FnMut
  | FnOnce
  deriving DecidableEq, Repr

/-- ClosureKind::extends: an Fn closure can be used where FnMut or FnOnce is
expected, and an FnMut closure where FnOnce is expected. -/
def ClosureKind.extends_kind : ClosureKind → ClosureKind → Bool
  | .Fn, _ => true
  | .FnMut, .FnMut => true
  | .FnMut, .FnOnce => true
  | .FnOnce, .FnOnce => true
  | _, _ => false

/-- The parts of a ty::FnSig inspected by assemble_fn_pointer_candidates:
whether unsafety is Normal, whether the ABI is Rust, and c_variadic. -/
structure FnSigInfo where
  safe : Bool
  abi_rust : Bool
  c_variadic : Bool
  deriving DecidableEq, Repr

/-- The head shape of a type (ty::TyKind), with exactly the payloads candidate
assembly inspects: generator movability, closure kind, fn signatures, trait
object data (auto traits, principal trait-ref id, dyn kind), ADT identity. -/
inductive TyKind where
  | Bool
  | Char
  | Int
  | Uint
  | Float
  | Str
  | Never
  | Adt (def_id : Nat) (is_struct : Bool)
  | Foreign
  | Array
  | Slice
  | RawPtr
  | Ref
  | FnDef (def_id : Nat) (sig : FnSigInfo)
  | FnPtr (sig : FnSigInfo)
  | Dynamic (auto_traits : List Nat) (principal : Option Nat) (dyn_kind : DynKind)
  | Closure (closure_kind : Option ClosureKind)
  | Generator (movability : Movability)
  | GeneratorWitness
  | Tuple (arity : Nat)
  | Projection
  | OpaqueTy
  | Param
  | Bound
  | Placeholder
  | Infer (v : InferTy)
  | Error
  deriving DecidableEq, Repr

/-- Alias for Bool usable inside the TyKind namespace, where the bare name
Bool would resolve to the TyKind constructor of the same name. -/
abbrev BoolT := Bool

/-- Ty::is_ty_var: a general type inference variable (not an int/float var). -/
def TyKind.is_ty_var : TyKind → BoolT
  | .Infer .TyVar => true
  | _ => false

/-- Shallow model of TyS::has_non_region_infer for a head shape. -/
def TyKind.has_non_region_infer : TyKind → BoolT
  | .Infer _ => true
  | _ => false

/-- ty::ImplPolarity of a trait predicate. -/
inductive ImplPolarity where
  | Positive
  | Negative
  | Reservation
  deriving DecidableEq, Repr

/-- The parts of a Binder of a TraitPredicate that candidate assembly reads:
the trait def-id, the self type head shape, the second generic argument
(the Unsize target), the polarity and constness, and the flags queried through
references_error / has_non_region_infer / has_non_region_param; bound_vars
records whether the binder binds any variables (no_bound_vars fails). -/
structure TraitPredicate where
  def_id : Nat
  self_ty : TyKind
  target_ty : TyKind
  polarity : ImplPolarity
  is_const : Bool
  references_error : Bool
  has_non_region_infer : Bool
  has_non_region_param : Bool
  bound_vars : Bool
  deriving DecidableEq, Repr

/-- A caller bound already converted by to_opt_poly_trait_pred: the trait it
names and an identity for the full bound. -/
structure CallerBound where
  def_id : Nat
  id : Nat
  deriving DecidableEq, Repr

/-- ty::ParamEnv as consumed here: its list of caller bounds. -/
structure ParamEnv where
  caller_bounds : List CallerBound
  deriving DecidableEq, Repr

/-- A trait obligation (cause omitted: it is only threaded to diagnostics). -/
structure Obligation where
  predicate : TraitPredicate
  param_env : ParamEnv
  recursion_depth : Nat
  deriving DecidableEq, Repr

/-- SelectionCandidate: the closed tagged union of proof strategies. -/
inductive SelectionCandidate where
  | ImplCandidate (impl_def_id : Nat)
  | AutoImplCandidate
  | ParamCandidate (bound : CallerBound)
  | ProjectionCandidate (idx : Nat) (is_const : Bool)
  | ObjectCandidate (idx : Nat)
  | BuiltinObjectCandidate
  | BuiltinCandidate (has_nested : Bool)
  | ClosureCandidate
  | GeneratorCandidate
  | FnPointerCandidate (is_const : Bool)
  | BuiltinUnsizeCandidate
  | TraitUpcastingUnsizeCandidate (idx : Nat)
  | TraitAliasCandidate
  | TransmutabilityCandidate
  | DiscriminantKindCandidate
  | PointeeCandidate
  | ConstDestructCandidate (impl_def_id : Option Nat)
  deriving DecidableEq, Repr

/-- SelectionCandidateSet: ordered candidates plus the ambiguity flag. -/
structure SelectionCandidateSet where
  vec : List SelectionCandidate
  ambiguous : Bool
  deriving DecidableEq, Repr

/-- OverflowError (payload of Error elided). -/
inductive OverflowError where
  | Canonical
  | ErrorReporting
  | Error
  deriving DecidableEq, Repr

/-- SelectionError, restricted to the variants this file produces. -/
inductive SelectionError where
  | Unimplemented
  | Overflow (e : OverflowError)
  | ErrorReporting
  deriving DecidableEq, Repr

/-- Conversion of an OverflowError raised by evaluation into a SelectionError,
mirroring the arms of the winnowing map in candidate_from_obligation_no_cache. -/
def SelectionError.from_overflow : OverflowError → SelectionError
  | .Canonical => .Overflow .Canonical
  | .ErrorReporting => .ErrorReporting
  | .Error => .Overflow .Error

/-- SelectionResult: Ok(Some c) selected, Ok(None) ambiguous, Err(e) failed. -/
abbrev SelectionResult := Except SelectionError (Option SelectionCandidate)

/-- Modelled from the spec: the deep-evaluation verdict for one candidate
(EvaluationResult lives in select/mod.rs, outside this file); only its
may_apply projection is consumed here. -/
inductive EvaluationResult where
  | EvaluatedToOk
  | EvaluatedToOkModuloRegions
  | EvaluatedToAmbig
  | EvaluatedToUnknown
  | EvaluatedToRecur
  | EvaluatedToErr
  deriving DecidableEq, Repr

/-- Modelled from the spec: may_apply discards only candidates that definitely
do not apply (EvaluationResult::may_apply in select/mod.rs). -/
def EvaluationResult.may_apply : EvaluationResult → Bool
  | .EvaluatedToOk => true
  | .EvaluatedToOkModuloRegions => true
  | .EvaluatedToAmbig => true
  | .EvaluatedToUnknown => true
  | .EvaluatedToRecur => false
  | .EvaluatedToErr => false

/-- EvaluatedCandidate: a candidate paired with its evaluation outcome. -/
structure EvaluatedCandidate where
  candidate : SelectionCandidate
  evaluation : EvaluationResult
  deriving DecidableEq, Repr

/-- coherence::Conflict: which crate boundary made the query unknowable. -/
inductive Conflict where
  | Upstream
  | Downstream
  deriving DecidableEq, Repr

/-- IntercrateAmbiguityCause (trait/self descriptions as opaque ids). -/
inductive IntercrateAmbiguityCause where
  | UpstreamCrateUpdate (trait_desc : Nat) (self_desc : Option Nat)
  | DownstreamCrate (trait_desc : Nat) (self_desc : Option Nat)
  deriving DecidableEq, Repr

/-- Insertion into the FxIndexSet of ambiguity causes (set semantics,
insertion order preserved). -/
def insertCause (causes : List IntercrateAmbiguityCause) (c : IntercrateAmbiguityCause) :
    List IntercrateAmbiguityCause :=
  if c ∈ causes then causes else causes ++ [c]

/-- BuiltinImplConditions, the verdict of sized_conditions / copy_clone_conditions. -/
inductive BuiltinImplConditions where
  | Where (nested : List TyKind)
  | None
  | Ambiguous
  deriving DecidableEq, Repr

/-- The lang-item registry entries consulted by the dispatcher. -/
structure LangItems where
  copy_trait : Option Nat
  discriminant_kind_trait : Option Nat
  pointee_trait : Option Nat
  sized_trait : Option Nat
  unsize_trait : Option Nat
  destruct_trait : Option Nat
  transmute_trait : Option Nat
  tuple_trait : Option Nat
  pointer_sized : Option Nat
  clone_trait : Option Nat
  gen_trait : Option Nat
  unpin_trait : Option Nat
  deref_trait : Option Nat
  deriving Repr

/-- The oracle context: tcx, infcx, coherence, evaluation and specialization
collaborators of SelectionContext, each as an opaque total function. -/
structure Ctx where
  lang_items : LangItems
  recursion_limit : Nat
  resolve : TraitPredicate → TraitPredicate
  freshen : TraitPredicate → TraitPredicate
  is_knowable : Obligation → Option Conflict
  intercrate_ambiguity_causes : Option (List IntercrateAmbiguityCause)
  evaluate_candidate : Obligation → SelectionCandidate → Except OverflowError EvaluationResult
  candidate_should_be_dropped_in_favor_of :
    EvaluatedCandidate → EvaluatedCandidate → Bool → Bool
  filter_impls_keeps : Obligation → SelectionCandidate → Bool
  is_reservation_impl : Nat → Bool
  is_trait_alias : Nat → Bool
  trait_is_auto : Nat → Bool
  relevant_impls : Nat → TyKind → List Nat
  fast_reject : Obligation → Nat → Bool
  match_impl_ok : Obligation → Nat → Bool
  copy_clone_conditions : Obligation → BuiltinImplConditions
  sized_conditions : Obligation → BuiltinImplConditions
  fn_trait_kind : Nat → Option ClosureKind
  target_features_empty : Nat → Bool
  is_const_fn : Nat → Bool
  match_projection_bounds : Obligation → List (Nat × Bool)
  where_clause_may_apply : Obligation → CallerBound → Except OverflowError EvaluationResult
  shallow_resolve : TyKind → TyKind
  find_drop_impl : TyKind → Option Nat
  impl_constness_const : Nat → Bool
  object_safe_for_dispatch : Bool
  trait_upcasting : Bool
  is_object_safe : Nat → Bool
  supertraits : Nat → List Nat
  trait_ref_def_id : Nat → Nat
  match_normalize_ok : Obligation → Nat → Bool
  predicate_may_hold_deref : TyKind → Bool
  deref_principal : TyKind → Option Nat
  has_concrete_skeleton : TyKind → Bool
  trait_desc : TraitPredicate → Nat
  self_ty_desc : TyKind → Nat
  layout_matches_usize : ParamEnv → TyKind → Bool

/-- The fresh obligation built at the top of assemble_candidates, with the
predicate run through resolve_vars_if_possible. -/
def resolved_obligation (ctx : Ctx) (o : Obligation) : Obligation :=
  { predicate := ctx.resolve o.predicate
    param_env := o.param_env
    recursion_depth := o.recursion_depth }

/-- assemble_candidates_from_projected_tys: only a self type that is itself a
projection or an opaque type is eligible (Self being a bare inference variable
is unreachable here, a span_bug in the source, modelled as a no-op). -/
def assemble_candidates_from_projected_tys (ctx : Ctx) (o : Obligation)
    (s : SelectionCandidateSet) : SelectionCandidateSet :=
  match o.predicate.self_ty with
  | .Projection | .OpaqueTy =>
      ⟨s.vec ++ ((ctx.match_projection_bounds o).map
        (fun ic => .ProjectionCandidate ic.1 ic.2)), s.ambiguous⟩
  | _ => s

/-- The for loop of assemble_candidates_from_caller_bounds: probe each
same-trait bound with where_clause_may_apply, propagating overflow, and keep
those that may apply. -/
def caller_bounds_loop (ctx : Ctx) (stack_o : Obligation) :
    List CallerBound → List SelectionCandidate →
    Except SelectionError (List SelectionCandidate)
  | [], acc => .ok acc
  | bound :: rest, acc =>
      match ctx.where_clause_may_apply stack_o bound with
      | .error e => .error (SelectionError.from_overflow e)
      | .ok wc =>
          caller_bounds_loop ctx stack_o rest
            (if wc.may_apply then acc ++ [.ParamCandidate bound] else acc)

/-- assemble_candidates_from_caller_bounds: filter the ambient bounds to the
obligation's trait and admit those that may apply. -/
def assemble_candidates_from_caller_bounds (ctx : Ctx) (stack_o : Obligation)
    (s : SelectionCandidateSet) : Except SelectionError SelectionCandidateSet :=
  match caller_bounds_loop ctx stack_o
      (stack_o.param_env.caller_bounds.filter
        (fun p => p.def_id == stack_o.predicate.def_id)) [] with
  | .error e => .error e
  | .ok pushed => .ok ⟨s.vec ++ pushed, s.ambiguous⟩

/-- assemble_generator_candidates. -/
def assemble_generator_candidates (ctx : Ctx) (o : Obligation)
    (s : SelectionCandidateSet) : SelectionCandidateSet :=
  if ctx.lang_items.gen_trait ≠ some o.predicate.def_id then s
  else
    match o.predicate.self_ty with
    | .Generator _ => ⟨s.vec ++ [.GeneratorCandidate], s.ambiguous⟩
    | .Infer .TyVar => ⟨s.vec, true⟩
    | _ => s

/-- assemble_closure_candidates. -/
def assemble_closure_candidates (ctx : Ctx) (o : Obligation)
    (s : SelectionCandidateSet) : SelectionCandidateSet :=
  match ctx.fn_trait_kind o.predicate.def_id with
  | none => s
  | some kind =>
      match o.predicate.self_ty with
      | .Closure closure_kind =>
          match closure_kind with
          | some ck =>
              if ck.extends_kind kind then ⟨s.vec ++ [.ClosureCandidate], s.ambiguous⟩
              else s
          | none => ⟨s.vec ++ [.ClosureCandidate], s.ambiguous⟩
      | .Infer .TyVar => ⟨s.vec, true⟩
      | _ => s

/-- assemble_fn_pointer_candidates. -/
def assemble_fn_pointer_candidates (ctx : Ctx) (o : Obligation)
    (s : SelectionCandidateSet) : SelectionCandidateSet :=
  if (ctx.fn_trait_kind o.predicate.def_id).isNone then s
  else
    match o.predicate.self_ty with
    | .Infer .TyVar => ⟨s.vec, true⟩
    | .FnPtr sig =>
        if sig.safe && sig.abi_rust && !sig.c_variadic then
          ⟨s.vec ++ [.FnPointerCandidate false], s.ambiguous⟩
        else s
    | .FnDef fn_def_id sig =>
        if sig.safe && sig.abi_rust && !sig.c_variadic then
          if ctx.target_features_empty fn_def_id then
            ⟨s.vec ++ [.FnPointerCandidate (ctx.is_const_fn fn_def_id)], s.ambiguous⟩
          else s
        else s
    | _ => s

/-- assemble_candidates_from_impls: skipped entirely when the predicate
references a type-level error; otherwise every relevant impl that survives
fast reject and the probe-scoped match becomes an ImplCandidate. -/
def assemble_candidates_from_impls (ctx : Ctx) (o : Obligation)
    (s : SelectionCandidateSet) : SelectionCandidateSet :=
  if o.predicate.references_error then s
  else
    let matched :=
      (ctx.relevant_impls o.predicate.def_id o.predicate.self_ty).filter
        (fun impl_def_id => !ctx.fast_reject o impl_def_id && ctx.match_impl_ok o impl_def_id)
    ⟨s.vec ++ matched.map (fun impl_def_id => .ImplCandidate impl_def_id), s.ambiguous⟩

/-- assemble_candidates_from_auto_impls. -/
def assemble_candidates_from_auto_impls (ctx : Ctx) (o : Obligation)
    (s : SelectionCandidateSet) : SelectionCandidateSet :=
  if ctx.trait_is_auto o.predicate.def_id then
    match o.predicate.self_ty with
    | .Dynamic _ _ _ => s
    | .Foreign => s
    | .Param => s
    | .Projection => s
    | .Infer .TyVar => ⟨s.vec, true⟩
    | .Generator movability =>
        if ctx.lang_items.unpin_trait = some o.predicate.def_id then
          match movability with
          | .Static => s
          | .Movable => ⟨s.vec ++ [.BuiltinCandidate false], s.ambiguous⟩
        else ⟨s.vec ++ [.AutoImplCandidate], s.ambiguous⟩
    | _ => ⟨s.vec ++ [.AutoImplCandidate], s.ambiguous⟩
  else s

/-- assemble_candidates_from_object_ty. -/
def assemble_candidates_from_object_ty (ctx : Ctx) (o : Obligation)
    (s : SelectionCandidateSet) : SelectionCandidateSet :=
  match o.predicate.self_ty with
  | .Dynamic auto_traits principal _ =>
      if o.predicate.def_id ∈ auto_traits then
        ⟨s.vec ++ [.BuiltinObjectCandidate], s.ambiguous⟩
      else
        match principal with
        | none => s
        | some p =>
            if !ctx.object_safe_for_dispatch
                || ctx.is_object_safe (ctx.trait_ref_def_id p) then
              ⟨s.vec ++
                (((ctx.supertraits p).enum.filter
                    (fun iu => ctx.match_normalize_ok o iu.2)).map
                  (fun iu => .ObjectCandidate iu.1)), s.ambiguous⟩
            else s
  | .Infer .TyVar => ⟨s.vec, true⟩
  | _ => s

/-- need_migrate_deref_output_trait_object (the Deref obligation construction
and projection normalization are collapsed into the two deref oracles). -/
def need_migrate_deref_output_trait_object (ctx : Ctx) (ty : TyKind) : Option Nat :=
  if ctx.trait_upcasting then none
  else
    match ctx.lang_items.deref_trait with
    | none => none
    | some _ =>
        if !ctx.predicate_may_hold_deref ty then none
        else ctx.deref_principal ty

/-- assemble_candidates_for_unsizing: the ordered structural match over the
pair of source and target shapes, including the source's guarded fallthrough
from the object-to-object arm into the trait-object-target arm. -/
def assemble_candidates_for_unsizing (ctx : Ctx) (o : Obligation)
    (s : SelectionCandidateSet) : SelectionCandidateSet :=
  if o.predicate.bound_vars then s
  else
    match o.predicate.self_ty, o.predicate.target_ty with
    | .Dynamic data_a prin_a dyn_a, .Dynamic data_b prin_b dyn_b =>
        if dyn_a = dyn_b then
          if data_b.all (fun b => data_a.any (fun a => a == b)) then
            if prin_a.map ctx.trait_ref_def_id = prin_b.map ctx.trait_ref_def_id then
              ⟨s.vec ++ [.BuiltinUnsizeCandidate], s.ambiguous⟩
            else
              match prin_a, prin_b.map ctx.trait_ref_def_id with
              | some principal_a, some target_trait_did =>
                  if (match need_migrate_deref_output_trait_object ctx
                        o.predicate.self_ty with
                      | some dr => ctx.trait_ref_def_id dr == target_trait_did
                      | none => false) then s
                  else
                    ⟨s.vec ++
                      (((ctx.supertraits principal_a).enum.filter
                          (fun iu => ctx.trait_ref_def_id iu.2 == target_trait_did)).map
                        (fun iu => .TraitUpcastingUnsizeCandidate iu.1)), s.ambiguous⟩
              | _, _ => s
          else s
        else if dyn_b = DynKind.Dyn then
          ⟨s.vec ++ [.BuiltinUnsizeCandidate], s.ambiguous⟩
        else s
    | src, .Dynamic _ _ k =>
        if k = DynKind.Dyn then ⟨s.vec ++ [.BuiltinUnsizeCandidate], s.ambiguous⟩
        else
          match src with
          | .Infer .TyVar => ⟨s.vec, true⟩
          | _ => s
    | .Infer .TyVar, _ => ⟨s.vec, true⟩
    | _, .Infer .TyVar => ⟨s.vec, true⟩
    | .Array, .Slice => ⟨s.vec ++ [.BuiltinUnsizeCandidate], s.ambiguous⟩
    | .Adt def_id_a is_struct_a, .Adt def_id_b _ =>
        if is_struct_a then
          if def_id_a = def_id_b then ⟨s.vec ++ [.BuiltinUnsizeCandidate], s.ambiguous⟩
          else s
        else s
    | .Tuple tys_a, .Tuple tys_b =>
        if tys_a = tys_b then ⟨s.vec ++ [.BuiltinUnsizeCandidate], s.ambiguous⟩ else s
    | _, _ => s

/-- assemble_candidates_for_transmutability. -/
def assemble_candidates_for_transmutability (o : Obligation)
    (s : SelectionCandidateSet) : SelectionCandidateSet :=
  if o.predicate.has_non_region_param then s
  else if o.predicate.has_non_region_infer then ⟨s.vec, true⟩
  else ⟨s.vec ++ [.TransmutabilityCandidate], s.ambiguous⟩

/-- assemble_candidates_for_trait_alias. -/
def assemble_candidates_for_trait_alias (ctx : Ctx) (o : Obligation)
    (s : SelectionCandidateSet) : SelectionCandidateSet :=
  if ctx.is_trait_alias o.predicate.def_id then
    ⟨s.vec ++ [.TraitAliasCandidate], s.ambiguous⟩
  else s

/-- assemble_builtin_bound_candidates. -/
def assemble_builtin_bound_candidates (conditions : BuiltinImplConditions)
    (s : SelectionCandidateSet) : SelectionCandidateSet :=
  match conditions with
  | .Where nested => ⟨s.vec ++ [.BuiltinCandidate (!nested.isEmpty)], s.ambiguous⟩
  | .None => s
  | .Ambiguous => ⟨s.vec, true⟩

/-- assemble_const_destruct_candidates: a non-const Destruct obligation is
satisfied unconditionally; the const path dispatches on the shallow-resolved
self shape, and an ADT consults its Drop impl's constness. -/
def assemble_const_destruct_candidates (ctx : Ctx) (o : Obligation)
    (s : SelectionCandidateSet) : SelectionCandidateSet :=
  if !o.predicate.is_const then
    ⟨s.vec ++ [.ConstDestructCandidate none], s.ambiguous⟩
  else
    match ctx.shallow_resolve o.predicate.self_ty with
    | .OpaqueTy | .Dynamic _ _ _ | .Error | .Bound | .Param | .Placeholder
    | .Projection => s
    | .Bool | .Char | .Int | .Uint | .Float
    | .Infer .IntVar | .Infer .FloatVar
    | .Str | .RawPtr | .Ref | .FnDef _ _ | .FnPtr _ | .Never | .Foreign
    | .Array | .Slice | .Closure _ | .Generator _ | .Tuple _ | .GeneratorWitness =>
        ⟨s.vec ++ [.ConstDestructCandidate none], s.ambiguous⟩
    | .Adt _ _ =>
        match ctx.find_drop_impl o.predicate.self_ty with
        | some impl_def_id =>
            if ctx.impl_constness_const impl_def_id then
              ⟨s.vec ++ [.ConstDestructCandidate (some impl_def_id)], s.ambiguous⟩
            else s
        | none => ⟨s.vec ++ [.ConstDestructCandidate none], s.ambiguous⟩
    | .Infer .TyVar => ⟨s.vec, true⟩

/-- assemble_candidate_for_tuple. -/
def assemble_candidate_for_tuple (ctx : Ctx) (o : Obligation)
    (s : SelectionCandidateSet) : SelectionCandidateSet :=
  match ctx.shallow_resolve o.predicate.self_ty with
  | .Tuple _ => ⟨s.vec ++ [.BuiltinCandidate false], s.ambiguous⟩
  | .Infer .TyVar => ⟨s.vec, true⟩
  | _ => s

/-- assemble_candidate_for_ptr_sized (region erasure is implicit in the
shallow shape; the layout comparison is the layout oracle). -/
def assemble_candidate_for_ptr_sized (ctx : Ctx) (o : Obligation)
    (s : SelectionCandidateSet) : SelectionCandidateSet :=
  if TyKind.has_non_region_infer o.predicate.self_ty then ⟨s.vec, true⟩
  else if ctx.layout_matches_usize o.param_env o.predicate.self_ty then
    ⟨s.vec ++ [.BuiltinCandidate false], s.ambiguous⟩
  else s

/-- The lang-item dispatch chain of assemble_candidates (its long else-if
ladder, including the general path of generator, closure, fn-pointer, impl and
object assemblers under an optional builtin-Clone step). -/
def assemble_dispatch (ctx : Ctx) (o : Obligation)
    (s : SelectionCandidateSet) : SelectionCandidateSet :=
  if ctx.lang_items.copy_trait = some o.predicate.def_id then
    assemble_builtin_bound_candidates (ctx.copy_clone_conditions o)
      (assemble_candidates_from_impls ctx o s)
  else if ctx.lang_items.discriminant_kind_trait = some o.predicate.def_id then
    ⟨s.vec ++ [.DiscriminantKindCandidate], s.ambiguous⟩
  else if ctx.lang_items.pointee_trait = some o.predicate.def_id then
    ⟨s.vec ++ [.PointeeCandidate], s.ambiguous⟩
  else if ctx.lang_items.sized_trait = some o.predicate.def_id then
    assemble_builtin_bound_candidates (ctx.sized_conditions o) s
  else if ctx.lang_items.unsize_trait = some o.predicate.def_id then
    assemble_candidates_for_unsizing ctx o s
  else if ctx.lang_items.destruct_trait = some o.predicate.def_id then
    assemble_const_destruct_candidates ctx o s
  else if ctx.lang_items.transmute_trait = some o.predicate.def_id then
    assemble_candidates_for_transmutability o (assemble_candidates_from_impls ctx o s)
  else if ctx.lang_items.tuple_trait = some o.predicate.def_id then
    assemble_candidate_for_tuple ctx o s
  else if ctx.lang_items.pointer_sized = some o.predicate.def_id then
    assemble_candidate_for_ptr_sized ctx o s
  else
    assemble_candidates_from_object_ty ctx o
      (assemble_candidates_from_impls ctx o
        (assemble_fn_pointer_candidates ctx o
          (assemble_closure_candidates ctx o
            (assemble_generator_candidates ctx o
              (if ctx.lang_items.clone_trait = some o.predicate.def_id then
                assemble_builtin_bound_candidates (ctx.copy_clone_conditions o) s
              else s)))))

/-- assemble_candidates: resolve the predicate, short-circuit on an inference
variable self type, handle negative polarity with only the trait-alias and
impl assemblers, otherwise dispatch on lang items, then always run projection
and caller-bound assembly, and auto-impl assembly only on an empty set. -/
def assemble_candidates (ctx : Ctx) (stack_o : Obligation) :
    Except SelectionError SelectionCandidateSet :=
  if (resolved_obligation ctx stack_o).predicate.self_ty.is_ty_var then
    .ok ⟨[], true⟩
  else if (resolved_obligation ctx stack_o).predicate.polarity = ImplPolarity.Negative then
    .ok (assemble_candidates_from_impls ctx (resolved_obligation ctx stack_o)
      (assemble_candidates_for_trait_alias ctx (resolved_obligation ctx stack_o) ⟨[], false⟩))
  else
    match assemble_candidates_from_caller_bounds ctx stack_o
        (assemble_candidates_from_projected_tys ctx (resolved_obligation ctx stack_o)
          (assemble_dispatch ctx (resolved_obligation ctx stack_o)
            (assemble_candidates_for_trait_alias ctx (resolved_obligation ctx stack_o)
              ⟨[], false⟩))) with
    | .error e => .error e
    | .ok c4 =>
        .ok (if c4.vec.isEmpty then
          assemble_candidates_from_auto_impls ctx (resolved_obligation ctx stack_o) c4
        else c4)

/-- Modelled from the spec: filter_impls (defined in select/mod.rs, outside
this file) is the coarse structural filter removing candidates ruled out once
the full predicate, not just the self type, is known; its per-candidate
decision is the filter_impls_keeps oracle. -/
def filter_impls (ctx : Ctx) (o : Obligation) (l : List SelectionCandidate) :
    List SelectionCandidate :=
  l.filter (fun c => ctx.filter_impls_keeps o c)

/-- Modelled from the spec: filter_reservation_impls (defined in
select/mod.rs, outside this file) treats an impl explicitly marked
reserved-for-future-use as ambiguity rather than as a normal winner. -/
def filter_reservation_impls (ctx : Ctx) (c : SelectionCandidate) : SelectionResult :=
  match c with
  | .ImplCandidate impl_def_id =>
      if ctx.is_reservation_impl impl_def_id then .ok none else .ok (some c)
  | _ => .ok (some c)

/-- The winnowing map of candidate_from_obligation_no_cache: evaluate each
candidate, keep those that may apply, and stop at the first evaluation error,
converted exactly as in the source's match arms. -/
def winnow_evaluate (ctx : Ctx) (o : Obligation) :
    List SelectionCandidate → Except SelectionError (List EvaluatedCandidate)
  | [] => .ok []
  | c :: rest =>
      match ctx.evaluate_candidate o c with
      | .ok eval =>
          if eval.may_apply then
            match winnow_evaluate ctx o rest with
            | .ok t => .ok (⟨c, eval⟩ :: t)
            | .error e => .error e
          else winnow_evaluate ctx o rest
      | .error .Canonical => .error (.Overflow .Canonical)
      | .error .ErrorReporting => .error .ErrorReporting
      | .error .Error => .error (.Overflow .Error)

/-- Vec::swap_remove: remove position i by moving the last element into it. -/
def swapRemove {α : Type} (l : List α) (i : Nat) : List α :=
  match l.getLast? with
  | none => l
  | some last => (l.set i last).dropLast

/-- The deduplication while loop, fuelled by its decreasing measure
(remaining length minus cursor, which the loop decrements by one each step):
candidate i is swap-removed when candidate_should_be_dropped_in_favor_of
prefers some other current candidate, the cursor otherwise advances, and the
loop returns none (ambiguity) as soon as a second candidate is retained. -/
def dedupGo (pref : EvaluatedCandidate → EvaluatedCandidate → Bool) :
    Nat → List EvaluatedCandidate → Nat → Option (List EvaluatedCandidate)
  | 0, l, _ => some l
  | fuel + 1, l, i =>
      if h : i < l.length then
        if (List.finRange l.length).any
            (fun j => (i != j.val) && pref (l.get ⟨i, h⟩) (l.get j)) then
          dedupGo pref fuel (swapRemove l i) i
        else if i + 1 > 1 then none
        else dedupGo pref fuel l (i + 1)
      else some l

/-- The deduplication loop entered at cursor i with exactly enough fuel. -/
def dedupLoop (pref : EvaluatedCandidate → EvaluatedCandidate → Bool)
    (l : List EvaluatedCandidate) (i : Nat) : Option (List EvaluatedCandidate) :=
  dedupGo pref (l.length - i) l i

/-- The diagnostic candidate scan of the unknowable path: evaluate candidates
until one may apply, propagating evaluation errors through the same
conversion; returns whether no candidate applied. -/
def diagnostic_scan (ctx : Ctx) (o : Obligation) :
    List SelectionCandidate → Except SelectionError Bool
  | [] => .ok true
  | c :: rest =>
      match ctx.evaluate_candidate o c with
      | .error e => .error (SelectionError.from_overflow e)
      | .ok ev => if ev.may_apply then .ok false else diagnostic_scan ctx o rest

/-- candidate_from_obligation_no_cache: the coherence pre-check with its
diagnostic-only re-assembly, then assembly, the ambiguity short-circuit, the
filter_impls pass, the single-candidate fast path, deep evaluation,
deduplication, and the empty-set verdict with error-type downgrade. Returns
the selection result paired with the updated ambiguity-cause state. -/
def candidate_from_obligation_no_cache (ctx : Ctx) (o : Obligation) :
    SelectionResult × Option (List IntercrateAmbiguityCause) :=
  match ctx.is_knowable o with
  | some conflict =>
      match ctx.intercrate_ambiguity_causes with
      | none => (.ok none, none)
      | some causes =>
          match assemble_candidates ctx o with
          | .error _ => (.ok none, some causes)
          | .ok candidate_set =>
              match diagnostic_scan ctx o candidate_set.vec with
              | .error e => (.error e, some causes)
              | .ok no_candidates_apply =>
                  if candidate_set.ambiguous = false ∧ no_candidates_apply = true then
                    let td := ctx.trait_desc o.predicate
                    let sd :=
                      if ctx.has_concrete_skeleton o.predicate.self_ty then
                        some (ctx.self_ty_desc o.predicate.self_ty)
                      else none
                    let cause :=
                      match conflict with
                      | .Upstream => IntercrateAmbiguityCause.UpstreamCrateUpdate td sd
                      | .Downstream => IntercrateAmbiguityCause.DownstreamCrate td sd
                    (.ok none, some (insertCause causes cause))
                  else (.ok none, some causes)
  | none =>
      match assemble_candidates ctx o with
      | .error e => (.error e, ctx.intercrate_ambiguity_causes)
      | .ok candidate_set =>
          if candidate_set.ambiguous then (.ok none, ctx.intercrate_ambiguity_causes)
          else
            match filter_impls ctx o candidate_set.vec with
            | [c] => (filter_reservation_impls ctx c, ctx.intercrate_ambiguity_causes)
            | filtered =>
                match winnow_evaluate ctx o filtered with
                | .error e => (.error e, ctx.intercrate_ambiguity_causes)
                | .ok evaluated =>
                    let needs_infer := o.predicate.has_non_region_infer
                    let deduped :=
                      if evaluated.length > 1 then
                        dedupLoop
                          (fun a b =>
                            ctx.candidate_should_be_dropped_in_favor_of a b needs_infer)
                          evaluated 0
                      else some evaluated
                    match deduped with
                    | none => (.ok none, ctx.intercrate_ambiguity_causes)
                    | some survivors =>
                        match survivors.getLast? with
                        | none =>
                            if o.predicate.references_error then
                              (.ok none, ctx.intercrate_ambiguity_causes)
                            else (.error .Unimplemented, ctx.intercrate_ambiguity_causes)
                        | some ec =>
                            (filter_reservation_impls ctx ec.candidate,
                              ctx.intercrate_ambiguity_causes)

/-- The selection cache, keyed by param_env and freshened predicate. -/
structure EvaluationCache where
  entries : List ((ParamEnv × TraitPredicate) × SelectionResult)

/-- Modelled from the spec: cache lookup (check_candidate_cache lives in
select/mod.rs, outside this file). -/
def check_candidate_cache (cache : EvaluationCache) (key : ParamEnv × TraitPredicate) :
    Option SelectionResult :=
  (cache.entries.find? (fun e => e.1 == key)).map (fun e => e.2)

/-- Modelled from the spec: cache insertion, no eviction
(insert_candidate_cache lives in select/mod.rs, outside this file). -/
def insert_candidate_cache (cache : EvaluationCache) (key : ParamEnv × TraitPredicate)
    (result : SelectionResult) : EvaluationCache :=
  ⟨cache.entries ++ [(key, result)]⟩

/-- Modelled from the spec: check_recursion_limit (defined in select/mod.rs,
outside this file) fails with Overflow when the obligation's recursion depth
exceeds the fixed limit. -/
def check_recursion_limit (ctx : Ctx) (o : Obligation) : Except SelectionError Unit :=
  if ctx.recursion_limit < o.recursion_depth then .error (.Overflow .Canonical)
  else .ok ()

/-- candidate_from_obligation: the recursion-limit check (bypassing the
cache), the freshened cache probe, and on a miss the uncached computation
followed by cache insertion. Returns the result, the updated cache, and the
updated ambiguity-cause state. -/
def candidate_from_obligation (ctx : Ctx) (cache : EvaluationCache) (o : Obligation) :
    SelectionResult × EvaluationCache × Option (List IntercrateAmbiguityCause) :=
  match check_recursion_limit ctx o with
  | .error e => (.error e, cache, ctx.intercrate_ambiguity_causes)
  | .ok _ =>
      let key := (o.param_env, ctx.freshen o.predicate)
      match check_candidate_cache cache key with
      | some c => (c, cache, ctx.intercrate_ambiguity_causes)
      | none =>
          let r := candidate_from_obligation_no_cache ctx o
          (r.1, insert_candidate_cache cache key r.1, r.2)

/-- A candidate set extends another: its vec is the other's followed by a
suffix that adds no AutoImplCandidate (every assembler except the auto-impl
one has this shape). -/
def VecShape (s t : SelectionCandidateSet) : Prop :=
  ∃ u, t.vec = s.vec ++ u ∧ SelectionCandidate.AutoImplCandidate ∉ u

/-- An empty lang-item registry, for concrete test contexts. -/
def noLangItems : LangItems :=
  { copy_trait := none, discriminant_kind_trait := none, pointee_trait := none,
    sized_trait := none, unsize_trait := none, destruct_trait := none,
    transmute_trait := none, tuple_trait := none, pointer_sized := none,
    clone_trait := none, gen_trait := none, unpin_trait := none, deref_trait := none }

/-- A plain positive predicate on an ADT self type. -/
def basePredicate : TraitPredicate :=
  { def_id := 0, self_ty := .Adt 0 true, target_ty := .Error,
    polarity := .Positive, is_const := false, references_error := false,
    has_non_region_infer := false, has_non_region_param := false, bound_vars := false }

/-- A plain obligation with no caller bounds at depth zero. -/
def baseObligation : Obligation :=
  { predicate := basePredicate, param_env := ⟨[]⟩, recursion_depth := 0 }

/-- A neutral concrete context: identity inference oracles, everything
knowable, no impls, no lang items, evaluation succeeds. -/
def baseCtx : Ctx :=
  { lang_items := noLangItems
    recursion_limit := 128
    resolve := fun p => p
    freshen := fun p => p
    is_knowable := fun _ => none
    intercrate_ambiguity_causes := none
    evaluate_candidate := fun _ _ => .ok .EvaluatedToOk
    candidate_should_be_dropped_in_favor_of := fun _ _ _ => false
    filter_impls_keeps := fun _ _ => true
    is_reservation_impl := fun _ => false
    is_trait_alias := fun _ => false
    trait_is_auto := fun _ => false
    relevant_impls := fun _ _ => []
    fast_reject := fun _ _ => false
    match_impl_ok := fun _ _ => true
    copy_clone_conditions := fun _ => .None
    sized_conditions := fun _ => .None
    fn_trait_kind := fun _ => none
    target_features_empty := fun _ => true
    is_const_fn := fun _ => false
    match_projection_bounds := fun _ => []
    where_clause_may_apply := fun _ _ => .ok .EvaluatedToOk
    shallow_resolve := fun t => t
    find_drop_impl := fun _ => none
    impl_constness_const := fun _ => false
    object_safe_for_dispatch := false
    trait_upcasting := false
    is_object_safe := fun _ => true
    supertraits := fun _ => []
    trait_ref_def_id := fun t => t
    match_normalize_ok := fun _ _ => true
    predicate_may_hold_deref := fun _ => false
    deref_principal := fun _ => none
    has_concrete_skeleton := fun _ => true
    trait_desc := fun _ => 0
    self_ty_desc := fun _ => 0
    layout_matches_usize := fun _ _ => false }

/-- A context whose resolve oracle reveals the self type as a type variable. -/
def c1Ctx : Ctx :=
  { baseCtx with resolve := fun p => { p with self_ty := .Infer .TyVar } }

/-- A context with a low recursion limit (the trait is an alias so an uncached
computation would find a candidate). -/
def c2Ctx : Ctx :=
  { baseCtx with recursion_limit := 2, is_trait_alias := fun _ => true }

/-- An obligation over the recursion limit of c2Ctx. -/
def c2Ob : Obligation := { baseObligation with recursion_depth := 3 }

/-- A context on the unknowable path whose diagnostic evaluation overflows. -/
def c3Ctx : Ctx :=
  { baseCtx with
    is_knowable := fun _ => some .Downstream
    intercrate_ambiguity_causes := some []
    is_trait_alias := fun _ => true
    evaluate_candidate := fun _ _ => .error .Canonical }

/-- A context on the unknowable path whose diagnostic evaluation succeeds. -/
def c3wCtx : Ctx :=
  { baseCtx with
    is_knowable := fun _ => some .Downstream
    intercrate_ambiguity_causes := some []
    is_trait_alias := fun _ => true }

/-- A context where assembly finds exactly one impl candidate but the
filter_impls pass removes it. -/
def c4Ctx : Ctx :=
  { baseCtx with
    relevant_impls := fun _ _ => [0]
    filter_impls_keeps := fun _ _ => false }

/-- An adversarial evaluation oracle that always overflows, used to witness
that a path never invokes deep evaluation. -/
def advEval : Obligation → SelectionCandidate → Except OverflowError EvaluationResult :=
  fun _ _ => .error .Canonical

/-- A context where assembly finds exactly one (trait alias) candidate while
the deep evaluation oracle always overflows. -/
def c4AdvCtx : Ctx :=
  { baseCtx with
    is_trait_alias := fun _ => true
    evaluate_candidate := advEval }

/-- Evaluated candidates for exercising the deduplication loop. -/
def ecA : EvaluatedCandidate := ⟨.ImplCandidate 0, .EvaluatedToOk⟩

/-- Second evaluated candidate for the deduplication loop. -/
def ecB : EvaluatedCandidate := ⟨.ImplCandidate 1, .EvaluatedToOk⟩

/-- Third evaluated candidate for the deduplication loop. -/
def ecC : EvaluatedCandidate := ⟨.ImplCandidate 2, .EvaluatedToOk⟩

/-- A non-transitive specialization preference: impl 0 loses to impl 1 and
impl 1 loses to impl 2, but impl 0 does not lose to impl 2. -/
def prefC5 : EvaluatedCandidate → EvaluatedCandidate → Bool := fun a b =>
  match a.candidate, b.candidate with
  | .ImplCandidate 0, .ImplCandidate 1 => true
  | .ImplCandidate 1, .ImplCandidate 2 => true
  | _, _ => false

/-- A context assembling two candidates both of which fail deep evaluation. -/
def c6Ctx : Ctx :=
  { baseCtx with
    is_trait_alias := fun _ => true
    relevant_impls := fun _ _ => [3]
    evaluate_candidate := fun _ _ => .ok .EvaluatedToErr }

/-- An obligation with one matching caller bound. -/
def c7Ob : Obligation := { baseObligation with param_env := ⟨[⟨0, 5⟩]⟩ }

/-- The same obligation with negative polarity. -/
def c7nOb : Obligation :=
  { predicate := { basePredicate with polarity := .Negative }
    param_env := ⟨[⟨0, 5⟩]⟩
    recursion_depth := 0 }

/-- A transmutability obligation whose predicate still has non-region
inference variables (but a concrete self type). -/
def c9Ob : Obligation :=
  { baseObligation with
    predicate := { basePredicate with def_id := 9, has_non_region_infer := true } }

/-- A context making trait 9 the transmutability lang item with one matching
impl, so assembly yields a nonempty vec and the ambiguous flag together. -/
def c9Ctx : Ctx :=
  { baseCtx with
    lang_items := { noLangItems with transmute_trait := some 9 }
    relevant_impls := fun _ _ => [7] }

/-- The transmutability context with adversarial downstream oracles, used to
witness that an ambiguous set's candidate list is never consulted. -/
def c9AdvCtx : Ctx :=
  { c9Ctx with
    evaluate_candidate := advEval
    candidate_should_be_dropped_in_favor_of := fun _ _ _ => true
    filter_impls_keeps := fun _ _ => false
    is_reservation_impl := fun _ => true }

/-- A context where trait 4 is an auto trait and the Unpin lang item. -/
def c10Ctx : Ctx :=
  { baseCtx with
    trait_is_auto := fun _ => true
    lang_items := { noLangItems with unpin_trait := some 4 } }

/-- An Unpin obligation on an immovable generator. -/
def c10ObStatic : Obligation :=
  { baseObligation with
    predicate := { basePredicate with def_id := 4, self_ty := .Generator .Static } }

/-- An Unpin obligation on a movable generator. -/
def c10ObMovable : Obligation :=
  { baseObligation with
    predicate := { basePredicate with def_id := 4, self_ty := .Generator .Movable } }

/-- swap_remove of a nonempty list shortens it by exactly one element. -/
theorem length_swapRemove {α : Type} (l : List α) (i : Nat) (h : l ≠ []) :
    (swapRemove l i).length = l.length - 1 := by
  unfold swapRemove
  cases e : l.getLast? with
  | none => exact absurd (List.getLast?_eq_none_iff.mp e) h
  | some a => simp [List.length_dropLast, List.length_set]

/-- Every element of a swap_remove result was in the original list. -/
theorem mem_of_mem_swapRemove {α : Type} {x : α} {l : List α} {i : Nat}
    (h : x ∈ swapRemove l i) : x ∈ l := by
  unfold swapRemove at h
  cases e : l.getLast? with
  | none => rw [e] at h; exact h
  | some a =>
      rw [e] at h
      have h2 : x ∈ l.set i a := List.dropLast_subset _ h
      rcases List.mem_or_eq_of_mem_set h2 with h3 | h3
      · exact h3
      · subst h3
        have hnil : l ≠ [] := by
          intro he
          subst he
          simp at e
        rw [List.getLast?_eq_getLast l hnil] at e
        exact (Option.some.inj e) ▸ List.getLast_mem hnil

/-- An element of the list missing from its swap_remove at position i must be
the element at position i. -/
theorem eq_get_of_not_mem_swapRemove {α : Type} {x : α} {l : List α} {i : Nat}
    (h : i < l.length) (hx : x ∈ l) (hns : x ∉ swapRemove l i) : x = l.get ⟨i, h⟩ := by
  by_contra hne
  apply hns
  have hnil : l ≠ [] := List.ne_nil_of_length_pos (by omega)
  obtain ⟨last, hlast⟩ : ∃ a, l.getLast? = some a := by
    cases e : l.getLast? with
    | none => exact absurd (List.getLast?_eq_none_iff.mp e) hnil
    | some a => exact ⟨a, rfl⟩
  unfold swapRemove
  rw [hlast]
  obtain ⟨k, hk, hget⟩ := List.mem_iff_getElem.mp hx
  have hki : k ≠ i := by
    intro e
    subst e
    exact hne (by rw [List.get_eq_getElem]; exact hget.symm)
  by_cases hkl : k < l.length - 1
  · refine List.mem_iff_getElem.mpr ⟨k, ?_, ?_⟩
    · rw [List.length_dropLast, List.length_set]
      exact hkl
    · rw [List.getElem_dropLast, List.getElem_set_ne (Ne.symm hki)]
      exact hget
  · have hk1 : k = l.length - 1 := by omega
    subst hk1
    have hxlast : last = x := by
      have h2 := List.getLast?_eq_getElem? l
      rw [hlast, List.getElem?_eq_getElem (by omega)] at h2
      exact (Option.some.inj h2).trans hget
    have hil : i < l.length - 1 := by omega
    refine List.mem_iff_getElem.mpr ⟨i, ?_, ?_⟩
    · rw [List.length_dropLast, List.length_set]
      exact hil
    · rw [List.getElem_dropLast, List.getElem_set_self]
      exact hxlast

/-- With enough fuel and a cursor at most 1, a completed deduplication loop
returns at most one candidate. -/
theorem dedupGo_length_le {pref : EvaluatedCandidate → EvaluatedCandidate → Bool} :
    ∀ (fuel : Nat) (l : List EvaluatedCandidate) (i : Nat) (r : List EvaluatedCandidate),
      l.length - i ≤ fuel → i ≤ 1 → dedupGo pref fuel l i = some r → r.length ≤ 1
  | 0, l, i, r, hf, hi, he => by
      unfold dedupGo at he
      injection he with he
      subst he
      omega
  | fuel + 1, l, i, r, hf, hi, he => by
      unfold dedupGo at he
      split at he
      next h =>
        split at he
        next hd =>
          have hnil : l ≠ [] := List.ne_nil_of_length_pos (by omega)
          exact dedupGo_length_le fuel (swapRemove l i) i r
            (by rw [length_swapRemove l i hnil]; omega) hi he
        next hd =>
          split at he
          next h1 => cases he
          next h1 =>
            exact dedupGo_length_le fuel l (i + 1) r (by omega) (by omega) he
      next h =>
        injection he with he
        subst he
        omega

/-- Every candidate dropped by the deduplication loop was, when examined,
preferred-against by some candidate then present in the working list, hence by
some member of the original list (not necessarily a surviving one). -/
theorem dedupGo_drop_justified {pref : EvaluatedCandidate → EvaluatedCandidate → Bool} :
    ∀ (fuel : Nat) (l : List EvaluatedCandidate) (i : Nat) (r : List EvaluatedCandidate),
      dedupGo pref fuel l i = some r →
      ∀ x ∈ l, x ∉ r → ∃ y ∈ l, pref x y = true
  | 0, l, i, r, he, x, hx, hr => by
      unfold dedupGo at he
      injection he with he
      subst he
      exact absurd hx hr
  | fuel + 1, l, i, r, he, x, hx, hr => by
      unfold dedupGo at he
      split at he
      next h =>
        split at he
        next hd =>
          by_cases hxs : x ∈ swapRemove l i
          · obtain ⟨y, hy, hp⟩ :=
              dedupGo_drop_justified fuel (swapRemove l i) i r he x hxs hr
            exact ⟨y, mem_of_mem_swapRemove hy, hp⟩
          · have hxi : x = l.get ⟨i, h⟩ := eq_get_of_not_mem_swapRemove h hx hxs
            obtain ⟨j, hj, hpj⟩ := List.any_eq_true.mp hd
            rw [Bool.and_eq_true] at hpj
            have hp2 := hpj.2
            exact ⟨l.get j, List.get_mem l j.val j.isLt, by rw [hxi]; exact hp2⟩
        next hd =>
          split at he
          next h1 => cases he
          next h1 => exact dedupGo_drop_justified fuel l (i + 1) r he x hx hr
      next h =>
        injection he with he
        subst he
        exact absurd hx hr

/-- C5 counterexample: with a non-transitive preference oracle over three
candidates, the deduplication loop drops the first candidate and keeps only
the third, yet the oracle does not prefer the surviving candidate over the
dropped one, so being dropped is not equivalent to losing against a surviving
candidate. -/
theorem c5_counterexample :
    dedupLoop prefC5 [ecA, ecB, ecC] 0 = some [ecC] ∧
    ecA ∈ [ecA, ecB, ecC] ∧ ecA ∉ [ecC] ∧ ecA ≠ ecC ∧ prefC5 ecA ecC = false := by
  refine ⟨by decide, by decide, by decide, by decide, by decide⟩

/-- C5 (amended): a candidate is dropped by the deduplication loop only when
the oracle prefers some other candidate of the evaluated list (present in the
working list at examination time, though not necessarily surviving) over it,
and the loop never completes with more than one survivor: retaining a second
candidate instead returns the ambiguity signal. -/
theorem c5_dedup_sound (pref : EvaluatedCandidate → EvaluatedCandidate → Bool)
    (l r : List EvaluatedCandidate) (i : Nat)
    (hi : i ≤ 1) (h : dedupLoop pref l i = some r) :
    r.length ≤ 1 ∧ ∀ x ∈ l, x ∉ r → ∃ y ∈ l, pref x y = true :=
  ⟨dedupGo_length_le (l.length - i) l i r (le_refl _) hi h,
   fun x hx hr => dedupGo_drop_justified (l.length - i) l i r h x hx hr⟩

/-- Witness for c5_dedup_sound on the concrete three-candidate run. -/
theorem c5_witness :
    ([ecC] : List EvaluatedCandidate).length ≤ 1 ∧
    ∀ x ∈ [ecA, ecB, ecC], x ∉ [ecC] → ∃ y ∈ [ecA, ecB, ecC], prefC5 x y = true :=
  c5_dedup_sound prefC5 [ecA, ecB, ecC] [ecC] 0 (by decide) (by decide)

/-- When the evaluation oracle never fails, the diagnostic candidate scan of
the unknowable path always succeeds. -/
theorem diagnostic_scan_no_error (ctx : Ctx) (o : Obligation)
    (h : ∀ c e, ctx.evaluate_candidate o c ≠ .error e) :
    ∀ l, ∃ b, diagnostic_scan ctx o l = .ok b
  | [] => ⟨true, rfl⟩
  | c :: rest => by
      cases he : ctx.evaluate_candidate o c with
      | error e => exact absurd he (h c e)
      | ok ev =>
          cases hm : ev.may_apply with
          | true => exact ⟨false, by unfold diagnostic_scan; rw [he]; simp [hm]⟩
          | false =>
              obtain ⟨b, hb⟩ := diagnostic_scan_no_error ctx o h rest
              exact ⟨b, by unfold diagnostic_scan; rw [he]; simp [hm]; exact hb⟩

/-- Every error the diagnostic scan produces is the conversion of an
evaluation overflow. -/
theorem diagnostic_scan_error_shape (ctx : Ctx) (o : Obligation) :
    ∀ l e, diagnostic_scan ctx o l = .error e → ∃ oe, e = SelectionError.from_overflow oe := by
  intro l
  induction l with
  | nil => intro e he; cases he
  | cons c rest ih =>
      intro e he
      unfold diagnostic_scan at he
      split at he
      next e2 hev => exact ⟨e2, (Except.error.inj he).symm⟩
      next ev hev =>
          split at he
          next => cases he
          next => exact ih e he

/-- C3 counterexample: on the unknowable path, an overflow raised while
evaluating a candidate for the ambiguity-cause diagnostic is propagated as the
verdict, which is therefore not the unconditional Ambiguous the claim
promises. -/
theorem c3_counterexample :
    (candidate_from_obligation_no_cache c3Ctx baseObligation).1 =
      .error (.Overflow .Canonical) ∧
    Except.error (SelectionError.Overflow OverflowError.Canonical) ≠
      (Except.ok none : SelectionResult) :=
  ⟨rfl, fun h => Except.noConfusion h⟩

/-- C3 (amended): whenever the coherence knowability pre-check fails, the
verdict is Ambiguous provided no diagnostic-path candidate evaluation fails;
unconditionally, the verdict on this path is Ambiguous or a propagated
overflow / error-reporting error, never Selected and never Unimplemented. -/
theorem c3_unknowable_verdict (ctx : Ctx) (o : Obligation) (conflict : Conflict)
    (h1 : ctx.is_knowable o = some conflict) :
    ((∀ c e, ctx.evaluate_candidate o c ≠ .error e) →
      (candidate_from_obligation_no_cache ctx o).1 = .ok none) ∧
    ((candidate_from_obligation_no_cache ctx o).1 = .ok none ∨
      (∃ oe, (candidate_from_obligation_no_cache ctx o).1 = .error (.Overflow oe)) ∨
      (candidate_from_obligation_no_cache ctx o).1 = .error .ErrorReporting) := by
  constructor
  · intro hne
    unfold candidate_from_obligation_no_cache
    rw [h1]
    cases hcauses : ctx.intercrate_ambiguity_causes with
    | none => rfl
    | some causes =>
        cases has : assemble_candidates ctx o with
        | error e => rfl
        | ok cset =>
            obtain ⟨b, hb⟩ := diagnostic_scan_no_error ctx o hne cset.vec
            simp only [has, hb]
            split <;> rfl
  · unfold candidate_from_obligation_no_cache
    rw [h1]
    cases hcauses : ctx.intercrate_ambiguity_causes with
    | none => exact Or.inl rfl
    | some causes =>
        cases has : assemble_candidates ctx o with
        | error e => exact Or.inl rfl
        | ok cset =>
            cases hb : diagnostic_scan ctx o cset.vec with
            | error e =>
                obtain ⟨oe, hoe⟩ := diagnostic_scan_error_shape ctx o cset.vec e hb
                subst hoe
                simp only [has, hb]
                cases oe with
                | Canonical => exact Or.inr (Or.inl ⟨.Canonical, rfl⟩)
                | ErrorReporting => exact Or.inr (Or.inr rfl)
                | Error => exact Or.inr (Or.inl ⟨.Error, rfl⟩)
            | ok b =>
                simp only [has, hb]
                left
                split <;> rfl

/-- Witness for c3_unknowable_verdict with a successful evaluation oracle. -/
theorem c3_witness :
    (candidate_from_obligation_no_cache c3wCtx baseObligation).1 = .ok none :=
  (c3_unknowable_verdict c3wCtx baseObligation .Downstream rfl).1
    (fun _ _ h => Except.noConfusion h)

/-- Evaluating a list of candidates that all fail deep evaluation discards
every one of them. -/
theorem winnow_evaluate_all_discarded (ctx : Ctx) (o : Obligation) :
    ∀ l, (∀ c ∈ l, ∃ ev, ctx.evaluate_candidate o c = .ok ev ∧ ev.may_apply = false) →
      winnow_evaluate ctx o l = .ok []
  | [], _ => rfl
  | c :: rest, h => by
      obtain ⟨ev, hev, hm⟩ := h c (List.mem_cons_self c rest)
      have ihr := winnow_evaluate_all_discarded ctx o rest
        (fun c2 hc2 => h c2 (List.mem_cons_of_mem c hc2))
      unfold winnow_evaluate
      rw [hev]
      simp [hm]
      exact ihr

/-- C6: when zero candidates survive winnowing (every filtered candidate is
discarded by deep evaluation and the single-candidate fast path does not
apply), the verdict is Unimplemented, except that a predicate referencing a
type-level error yields Ambiguous instead. -/
theorem c6_empty_winnow_verdict (ctx : Ctx) (o : Obligation) (l : List SelectionCandidate)
    (h1 : ctx.is_knowable o = none)
    (h2 : assemble_candidates ctx o = .ok ⟨l, false⟩)
    (h4 : (filter_impls ctx o l).length ≠ 1)
    (h5 : ∀ c ∈ filter_impls ctx o l, ∃ ev, ctx.evaluate_candidate o c = .ok ev ∧
      ev.may_apply = false) :
    (candidate_from_obligation_no_cache ctx o).1 =
      if o.predicate.references_error then .ok none else .error .Unimplemented := by
  have hw := winnow_evaluate_all_discarded ctx o (filter_impls ctx o l) h5
  unfold candidate_from_obligation_no_cache
  rw [h1]
  simp only [h2]
  cases hf : filter_impls ctx o l with
  | nil =>
      rw [hf] at hw
      simp only [hf, hw]
      by_cases hre : o.predicate.references_error = true <;> simp [hre]
  | cons a rest =>
      cases rest with
      | nil => exact absurd (by rw [hf]; rfl) h4
      | cons b rest2 =>
          rw [hf] at hw
          simp only [hf, hw]
          by_cases hre : o.predicate.references_error = true <;> simp [hre]

/-- Witness for c6_empty_winnow_verdict: two candidates assembled, both
discarded by evaluation, no error type referenced, verdict Unimplemented. -/
theorem c6_witness :
    (candidate_from_obligation_no_cache c6Ctx baseObligation).1 =
      .error .Unimplemented :=
  c6_empty_winnow_verdict c6Ctx baseObligation
    [.TraitAliasCandidate, .ImplCandidate 3] rfl rfl (by decide)
    (fun _ _ => ⟨.EvaluatedToErr, rfl, rfl⟩)

/-- A set trivially extends itself. -/
theorem vecShape_refl (s : SelectionCandidateSet) : VecShape s s :=
  ⟨[], by simp, by simp⟩

/-- Changing only the ambiguity flag extends the set. -/
theorem vecShape_same_vec (s : SelectionCandidateSet) (b : Bool) :
    VecShape s ⟨s.vec, b⟩ :=
  ⟨[], by simp, by simp⟩

/-- Pushing one non-auto candidate extends the set. -/
theorem vecShape_push (s : SelectionCandidateSet) (b : Bool) (c : SelectionCandidate)
    (h : c ≠ .AutoImplCandidate) : VecShape s ⟨s.vec ++ [c], b⟩ :=
  ⟨[c], rfl, fun hm => h (List.mem_singleton.mp hm).symm⟩

/-- Appending auto-free candidates extends the set. -/
theorem vecShape_append (s : SelectionCandidateSet) (b : Bool)
    (u : List SelectionCandidate)
    (h : SelectionCandidate.AutoImplCandidate ∉ u) : VecShape s ⟨s.vec ++ u, b⟩ :=
  ⟨u, rfl, h⟩

/-- Extension composes. -/
theorem vecShape_trans {s t u : SelectionCandidateSet}
    (h1 : VecShape s t) (h2 : VecShape t u) : VecShape s u := by
  obtain ⟨a, ha, hna⟩ := h1
  obtain ⟨b, hb, hnb⟩ := h2
  refine ⟨a ++ b, by rw [hb, ha, List.append_assoc], ?_⟩
  intro hm
  rcases List.mem_append.mp hm with h3 | h3
  · exact hna h3
  · exact hnb h3

/-- The projection assembler only appends projection candidates. -/
theorem shape_projected (ctx : Ctx) (o : Obligation) (s : SelectionCandidateSet) :
    VecShape s (assemble_candidates_from_projected_tys ctx o s) := by
  unfold assemble_candidates_from_projected_tys
  repeat' split
  all_goals
    first
      | exact vecShape_refl s
      | (refine vecShape_append s s.ambiguous _ ?_; simp)

/-- The generator assembler only appends a generator candidate. -/
theorem shape_generator (ctx : Ctx) (o : Obligation) (s : SelectionCandidateSet) :
    VecShape s (assemble_generator_candidates ctx o s) := by
  unfold assemble_generator_candidates
  repeat' split
  all_goals
    first
      | exact vecShape_refl s
      | exact vecShape_same_vec s true
      | (refine vecShape_push s s.ambiguous _ ?_; simp)

/-- The closure assembler only appends a closure candidate. -/
theorem shape_closure (ctx : Ctx) (o : Obligation) (s : SelectionCandidateSet) :
    VecShape s (assemble_closure_candidates ctx o s) := by
  unfold assemble_closure_candidates
  repeat' split
  all_goals
    first
      | exact vecShape_refl s
      | exact vecShape_same_vec s true
      | (refine vecShape_push s s.ambiguous _ ?_; simp)

/-- The fn-pointer assembler only appends fn-pointer candidates. -/
theorem shape_fn_pointer (ctx : Ctx) (o : Obligation) (s : SelectionCandidateSet) :
    VecShape s (assemble_fn_pointer_candidates ctx o s) := by
  unfold assemble_fn_pointer_candidates
  repeat' split
  all_goals
    first
      | exact vecShape_refl s
      | exact vecShape_same_vec s true
      | (refine vecShape_push s s.ambiguous _ ?_; simp)

/-- The impl assembler only appends impl candidates. -/
theorem shape_impls (ctx : Ctx) (o : Obligation) (s : SelectionCandidateSet) :
    VecShape s (assemble_candidates_from_impls ctx o s) := by
  unfold assemble_candidates_from_impls
  repeat' split
  all_goals
    first
      | exact vecShape_refl s
      | (refine vecShape_append s s.ambiguous _ ?_; simp)

/-- The object assembler only appends object candidates. -/
theorem shape_object_ty (ctx : Ctx) (o : Obligation) (s : SelectionCandidateSet) :
    VecShape s (assemble_candidates_from_object_ty ctx o s) := by
  unfold assemble_candidates_from_object_ty
  repeat' split
  all_goals
    first
      | exact vecShape_refl s
      | exact vecShape_same_vec s true
      | (refine vecShape_push s s.ambiguous _ ?_; simp)
      | (refine vecShape_append s s.ambiguous _ ?_; simp)

/-- The unsizing assembler only appends unsizing candidates. -/
theorem shape_unsizing (ctx : Ctx) (o : Obligation) (s : SelectionCandidateSet) :
    VecShape s (assemble_candidates_for_unsizing ctx o s) := by
  unfold assemble_candidates_for_unsizing
  repeat' split
  all_goals
    first
      | exact vecShape_refl s
      | exact vecShape_same_vec s true
      | (refine vecShape_push s s.ambiguous _ ?_; simp)
      | (refine vecShape_append s s.ambiguous _ ?_; simp)

/-- The transmutability assembler only appends a transmutability candidate. -/
theorem shape_transmutability (o : Obligation) (s : SelectionCandidateSet) :
    VecShape s (assemble_candidates_for_transmutability o s) := by
  unfold assemble_candidates_for_transmutability
  repeat' split
  all_goals
    first
      | exact vecShape_refl s
      | exact vecShape_same_vec s true
      | (refine vecShape_push s s.ambiguous _ ?_; simp)

/-- The trait-alias assembler only appends a trait-alias candidate. -/
theorem shape_trait_alias (ctx : Ctx) (o : Obligation) (s : SelectionCandidateSet) :
    VecShape s (assemble_candidates_for_trait_alias ctx o s) := by
  unfold assemble_candidates_for_trait_alias
  repeat' split
  all_goals
    first
      | exact vecShape_refl s
      | (refine vecShape_push s s.ambiguous _ ?_; simp)

/-- The builtin-conditions assembler only appends a builtin candidate. -/
theorem shape_builtin_bound (conditions : BuiltinImplConditions)
    (s : SelectionCandidateSet) :
    VecShape s (assemble_builtin_bound_candidates conditions s) := by
  unfold assemble_builtin_bound_candidates
  repeat' split
  all_goals
    first
      | exact vecShape_refl s
      | exact vecShape_same_vec s true
      | (refine vecShape_push s s.ambiguous _ ?_; simp)

/-- The const-destruct assembler only appends const-destruct candidates. -/
theorem shape_const_destruct (ctx : Ctx) (o : Obligation) (s : SelectionCandidateSet) :
    VecShape s (assemble_const_destruct_candidates ctx o s) := by
  unfold assemble_const_destruct_candidates
  repeat' split
  all_goals
    first
      | exact vecShape_refl s
      | exact vecShape_same_vec s true
      | (refine vecShape_push s s.ambiguous _ ?_; simp)

/-- The tuple assembler only appends a builtin candidate. -/
theorem shape_tuple (ctx : Ctx) (o : Obligation) (s : SelectionCandidateSet) :
    VecShape s (assemble_candidate_for_tuple ctx o s) := by
  unfold assemble_candidate_for_tuple
  repeat' split
  all_goals
    first
      | exact vecShape_refl s
      | exact vecShape_same_vec s true
      | (refine vecShape_push s s.ambiguous _ ?_; simp)

/-- The pointer-sized assembler only appends a builtin candidate. -/
theorem shape_ptr_sized (ctx : Ctx) (o : Obligation) (s : SelectionCandidateSet) :
    VecShape s (assemble_candidate_for_ptr_sized ctx o s) := by
  unfold assemble_candidate_for_ptr_sized
  repeat' split
  all_goals
    first
      | exact vecShape_refl s
      | exact vecShape_same_vec s true
      | (refine vecShape_push s s.ambiguous _ ?_; simp)

/-- The whole lang-item dispatch chain never pushes an AutoImplCandidate and
only extends the incoming candidate list. -/
theorem shape_dispatch (ctx : Ctx) (o : Obligation) (s : SelectionCandidateSet) :
    VecShape s (assemble_dispatch ctx o s) := by
  unfold assemble_dispatch
  split
  · exact vecShape_trans (shape_impls ctx o s) (shape_builtin_bound _ _)
  split
  · refine vecShape_push s s.ambiguous _ ?_
    simp
  split
  · refine vecShape_push s s.ambiguous _ ?_
    simp
  split
  · exact shape_builtin_bound _ _
  split
  · exact shape_unsizing ctx o s
  split
  · exact shape_const_destruct ctx o s
  split
  · exact vecShape_trans (shape_impls ctx o s) (shape_transmutability o _)
  split
  · exact shape_tuple ctx o s
  split
  · exact shape_ptr_sized ctx o s
  split
  · exact vecShape_trans (shape_builtin_bound _ _)
      (vecShape_trans (shape_generator ctx o _)
        (vecShape_trans (shape_closure ctx o _)
          (vecShape_trans (shape_fn_pointer ctx o _)
            (vecShape_trans (shape_impls ctx o _) (shape_object_ty ctx o _)))))
  · exact vecShape_trans (shape_generator ctx o _)
      (vecShape_trans (shape_closure ctx o _)
        (vecShape_trans (shape_fn_pointer ctx o _)
          (vecShape_trans (shape_impls ctx o _) (shape_object_ty ctx o _))))

/-- An AutoImplCandidate in an extension's vec was already present before. -/
theorem auto_not_added {s t : SelectionCandidateSet} (h : VecShape s t)
    (hx : SelectionCandidate.AutoImplCandidate ∈ t.vec) :
    SelectionCandidate.AutoImplCandidate ∈ s.vec := by
  obtain ⟨u, hu, hnu⟩ := h
  rw [hu] at hx
  rcases List.mem_append.mp hx with h2 | h2
  · exact h2
  · exact absurd h2 hnu

/-- Membership in a set's vec survives any extension. -/
theorem mem_of_vecShape {s t : SelectionCandidateSet} (h : VecShape s t)
    {x : SelectionCandidate} (hx : x ∈ s.vec) : x ∈ t.vec := by
  obtain ⟨u, hu, _⟩ := h
  rw [hu]
  exact List.mem_append_left _ hx

/-- The auto-impl assembler leaves the vec unchanged or appends exactly one
AutoImplCandidate or one nested-free Builtin candidate. -/
theorem auto_impls_vec_cases (ctx : Ctx) (o : Obligation) (s : SelectionCandidateSet) :
    (assemble_candidates_from_auto_impls ctx o s).vec = s.vec ∨
    (assemble_candidates_from_auto_impls ctx o s).vec =
      s.vec ++ [.AutoImplCandidate] ∨
    (assemble_candidates_from_auto_impls ctx o s).vec =
      s.vec ++ [.BuiltinCandidate false] := by
  unfold assemble_candidates_from_auto_impls
  repeat' split
  all_goals
    first
      | exact Or.inl rfl
      | exact Or.inr (Or.inl rfl)
      | exact Or.inr (Or.inr rfl)

/-- The caller-bounds loop keeps its accumulator, pushes a ParamCandidate for
every bound whose where-clause probe succeeds and may apply, and adds nothing
but ParamCandidates. -/
theorem caller_bounds_loop_spec (ctx : Ctx) (stack_o : Obligation) :
    ∀ (bs : List CallerBound) (acc l : List SelectionCandidate),
      caller_bounds_loop ctx stack_o bs acc = .ok l →
      (∀ x ∈ acc, x ∈ l) ∧
      (∀ b ∈ bs, ∀ ev, ctx.where_clause_may_apply stack_o b = .ok ev →
        ev.may_apply = true → SelectionCandidate.ParamCandidate b ∈ l) ∧
      (∀ x ∈ l, x ∈ acc ∨ ∃ b, x = SelectionCandidate.ParamCandidate b)
  | [], acc, l, h => by
      injection h with h
      subst h
      exact ⟨fun x hx => hx, by simp, fun x hx => Or.inl hx⟩
  | bound :: rest, acc, l, h => by
      unfold caller_bounds_loop at h
      split at h
      next e hev => cases h
      next wc hev =>
          obtain ⟨ih1, ih2, ih3⟩ := caller_bounds_loop_spec ctx stack_o rest
            (if wc.may_apply then acc ++ [.ParamCandidate bound] else acc) l h
          refine ⟨?_, ?_, ?_⟩
          · intro x hx
            apply ih1
            split
            · exact List.mem_append_left _ hx
            · exact hx
          · intro b hb ev hev2 hm
            rcases List.mem_cons.mp hb with hb | hb
            · subst hb
              rw [hev] at hev2
              have hwe : wc = ev := Except.ok.inj hev2
              subst hwe
              apply ih1
              rw [if_pos hm]
              exact List.mem_append_right _ (List.mem_singleton_self _)
            · exact ih2 b hb ev hev2 hm
          · intro x hx
            rcases ih3 x hx with hx2 | hx2
            · by_cases hm : wc.may_apply = true
              · rw [if_pos hm] at hx2
                rcases List.mem_append.mp hx2 with h3 | h3
                · exact Or.inl h3
                · exact Or.inr ⟨bound, List.mem_singleton.mp h3⟩
              · rw [if_neg hm] at hx2
                exact Or.inl hx2
            · exact Or.inr hx2

/-- The caller-bounds assembler: keeps the incoming candidates, pushes a
ParamCandidate for every applicable same-trait bound, and adds nothing but
ParamCandidates. -/
theorem caller_bounds_ok_spec (ctx : Ctx) (stack_o : Obligation)
    (s s2 : SelectionCandidateSet)
    (h : assemble_candidates_from_caller_bounds ctx stack_o s = .ok s2) :
    (∀ x ∈ s.vec, x ∈ s2.vec) ∧
    (∀ b ∈ stack_o.param_env.caller_bounds, b.def_id = stack_o.predicate.def_id →
      ∀ ev, ctx.where_clause_may_apply stack_o b = .ok ev → ev.may_apply = true →
        SelectionCandidate.ParamCandidate b ∈ s2.vec) ∧
    (∀ x ∈ s2.vec, x ∈ s.vec ∨ ∃ b, x = SelectionCandidate.ParamCandidate b) := by
  unfold assemble_candidates_from_caller_bounds at h
  split at h
  next e hl => cases h
  next pushed hl =>
      obtain ⟨lp1, lp2, lp3⟩ := caller_bounds_loop_spec ctx stack_o _ [] pushed hl
      have hs2 : s2 = ⟨s.vec ++ pushed, s.ambiguous⟩ := (Except.ok.inj h).symm
      subst hs2
      refine ⟨?_, ?_, ?_⟩
      · intro x hx
        exact List.mem_append_left _ hx
      · intro b hb hdef ev hev hm
        have hmem : b ∈ stack_o.param_env.caller_bounds.filter
            (fun p => p.def_id == stack_o.predicate.def_id) :=
          List.mem_filter.mpr ⟨hb, by simp [hdef]⟩
        exact List.mem_append_right _ (lp2 b hmem ev hev hm)
      · intro x hx
        rcases List.mem_append.mp hx with h3 | h3
        · exact Or.inl h3
        · rcases lp3 x h3 with h4 | h4
          · cases h4
          · exact Or.inr h4

/-- C4 counterexample: raw assembly yields exactly one impl candidate, but
the filter_impls pass removes it, so the verdict is Unimplemented rather than
the reservation-filtered selection of that candidate: the single-candidate
fast path is keyed to the filtered list, not to raw assembly. -/
theorem c4_counterexample :
    assemble_candidates c4Ctx baseObligation = .ok ⟨[.ImplCandidate 0], false⟩ ∧
    filter_reservation_impls c4Ctx (.ImplCandidate 0) =
      .ok (some (.ImplCandidate 0)) ∧
    (candidate_from_obligation_no_cache c4Ctx baseObligation).1 =
      .error .Unimplemented ∧
    Except.error SelectionError.Unimplemented ≠
      (Except.ok (some (SelectionCandidate.ImplCandidate 0)) : SelectionResult) :=
  ⟨rfl, rfl, rfl, fun h => Except.noConfusion h⟩

/-- C4 (amended): whenever exactly one candidate remains after the
filter_impls pass, winnowing returns that candidate through the
reservation-impl filter for every context, with no hypothesis on the deep
evaluation oracle, which is therefore never consulted (the witness runs an
evaluation oracle that always overflows). -/
theorem c4_single_candidate_fast_path (ctx : Ctx) (o : Obligation)
    (s : SelectionCandidateSet) (c : SelectionCandidate)
    (h1 : ctx.is_knowable o = none)
    (h2 : assemble_candidates ctx o = .ok s)
    (h3 : s.ambiguous = false)
    (h4 : filter_impls ctx o s.vec = [c]) :
    (candidate_from_obligation_no_cache ctx o).1 = filter_reservation_impls ctx c := by
  unfold candidate_from_obligation_no_cache
  rw [h1]
  simp only [h2, h3, h4]
  rfl

/-- Witness for c4_single_candidate_fast_path: one trait-alias candidate is
selected even under an evaluation oracle that always overflows. -/
theorem c4_witness :
    (candidate_from_obligation_no_cache c4AdvCtx baseObligation).1 =
      .ok (some .TraitAliasCandidate) :=
  c4_single_candidate_fast_path c4AdvCtx baseObligation ⟨[.TraitAliasCandidate], false⟩
    .TraitAliasCandidate rfl rfl rfl rfl

/-- C9 counterexample: for a transmutability obligation with residual
non-region inference variables, assembly pushes an impl candidate and then
sets the ambiguous flag, so an ambiguous candidate set can carry a nonempty
candidate list. -/
theorem c9_counterexample :
    assemble_candidates c9Ctx c9Ob = .ok ⟨[.ImplCandidate 7], true⟩ ∧
    ([SelectionCandidate.ImplCandidate 7] : List SelectionCandidate) ≠ [] :=
  ⟨rfl, by simp⟩

/-- C9 (amended): the candidate list of an ambiguous set need not be empty,
but the main selection path returns Ambiguous whenever the assembled set has
the ambiguous flag set, before the candidate list is consulted: no hypothesis
constrains the filtering, evaluation, specialization-ordering or reservation
oracles that read the list downstream (the witness runs adversarial ones). -/
theorem c9_ambiguous_short_circuit (ctx : Ctx) (o : Obligation)
    (s : SelectionCandidateSet)
    (h1 : ctx.is_knowable o = none)
    (h2 : assemble_candidates ctx o = .ok s)
    (h3 : s.ambiguous = true) :
    (candidate_from_obligation_no_cache ctx o).1 = .ok none := by
  unfold candidate_from_obligation_no_cache
  rw [h1]
  simp only [h2, h3]
  rfl

/-- Witness for c9_ambiguous_short_circuit under adversarial downstream
oracles, showing the nonempty candidate list is never consulted. -/
theorem c9_witness :
    (candidate_from_obligation_no_cache c9AdvCtx c9Ob).1 = .ok none :=
  c9_ambiguous_short_circuit c9AdvCtx c9Ob ⟨[.ImplCandidate 7], true⟩ rfl rfl rfl

/-- C7 counterexample: a negative-polarity obligation that reaches the
dispatcher (its self type is concrete) has an applicable matching caller
bound, yet the assembled set carries no ParamCandidate: on the negative path
only the trait-alias and impl assemblers run. -/
theorem c7_counterexample :
    assemble_candidates baseCtx c7nOb = .ok ⟨[], false⟩ ∧
    (resolved_obligation baseCtx c7nOb).predicate.self_ty.is_ty_var = false ∧
    (⟨0, 5⟩ : CallerBound) ∈ c7nOb.param_env.caller_bounds ∧
    (⟨0, 5⟩ : CallerBound).def_id = c7nOb.predicate.def_id ∧
    baseCtx.where_clause_may_apply c7nOb ⟨0, 5⟩ = .ok .EvaluatedToOk ∧
    EvaluationResult.may_apply .EvaluatedToOk = true ∧
    SelectionCandidate.ParamCandidate ⟨0, 5⟩ ∉
      (⟨[], false⟩ : SelectionCandidateSet).vec :=
  ⟨rfl, rfl, by decide, by decide, rfl, rfl, by decide⟩

/-- C7 (amended): for every obligation of non-negative polarity that reaches
the dispatcher, caller-bound assembly and projection-bound assembly always
contribute their candidates to the assembled set, and any AutoImplCandidate
the auto-impl assembler adds is alone in the set, so it only ran when every
other assembler contributed nothing. -/
theorem c7_positive_dispatch (ctx : Ctx) (stack_o : Obligation)
    (s : SelectionCandidateSet)
    (hvar : (resolved_obligation ctx stack_o).predicate.self_ty.is_ty_var = false)
    (hpol : (resolved_obligation ctx stack_o).predicate.polarity ≠ ImplPolarity.Negative)
    (hok : assemble_candidates ctx stack_o = .ok s) :
    (∀ b ∈ stack_o.param_env.caller_bounds, b.def_id = stack_o.predicate.def_id →
      ∀ ev, ctx.where_clause_may_apply stack_o b = .ok ev → ev.may_apply = true →
        SelectionCandidate.ParamCandidate b ∈ s.vec) ∧
    (((resolved_obligation ctx stack_o).predicate.self_ty = TyKind.Projection ∨
      (resolved_obligation ctx stack_o).predicate.self_ty = TyKind.OpaqueTy) →
      ∀ ic ∈ ctx.match_projection_bounds (resolved_obligation ctx stack_o),
        SelectionCandidate.ProjectionCandidate ic.1 ic.2 ∈ s.vec) ∧
    (SelectionCandidate.AutoImplCandidate ∈ s.vec →
      s.vec = [SelectionCandidate.AutoImplCandidate]) := by
  unfold assemble_candidates at hok
  rw [hvar, if_neg Bool.false_ne_true, if_neg hpol] at hok
  cases hcb : assemble_candidates_from_caller_bounds ctx stack_o
      (assemble_candidates_from_projected_tys ctx (resolved_obligation ctx stack_o)
        (assemble_dispatch ctx (resolved_obligation ctx stack_o)
          (assemble_candidates_for_trait_alias ctx (resolved_obligation ctx stack_o)
            ⟨[], false⟩))) with
  | error e => rw [hcb] at hok; cases hok
  | ok c4 =>
      rw [hcb] at hok
      have hs := Except.ok.inj hok
      subst hs
      obtain ⟨hkeep, hpush, hchar⟩ := caller_bounds_ok_spec ctx stack_o _ c4 hcb
      have hC3 : VecShape ⟨[], false⟩
          (assemble_candidates_from_projected_tys ctx (resolved_obligation ctx stack_o)
            (assemble_dispatch ctx (resolved_obligation ctx stack_o)
              (assemble_candidates_for_trait_alias ctx (resolved_obligation ctx stack_o)
                ⟨[], false⟩))) :=
        vecShape_trans (shape_trait_alias ctx _ _)
          (vecShape_trans (shape_dispatch ctx _ _) (shape_projected ctx _ _))
      have hmem_final : ∀ x, x ∈ c4.vec →
          x ∈ (if c4.vec.isEmpty then
            assemble_candidates_from_auto_impls ctx (resolved_obligation ctx stack_o) c4
          else c4).vec := by
        intro x hx
        split
        · rcases auto_impls_vec_cases ctx (resolved_obligation ctx stack_o) c4 with
            hv | hv | hv <;> rw [hv]
          · exact hx
          · exact List.mem_append_left _ hx
          · exact List.mem_append_left _ hx
        · exact hx
      refine ⟨?_, ?_, ?_⟩
      · intro b hb hdef ev hev hm
        exact hmem_final _ (hpush b hb hdef ev hev hm)
      · intro hself ic hic
        apply hmem_final
        apply hkeep
        unfold assemble_candidates_from_projected_tys
        rcases hself with h | h <;> rw [h] <;>
          exact List.mem_append_right _ (List.mem_map.mpr ⟨ic, hic, rfl⟩)
      · intro hauto
        by_cases hemp : c4.vec.isEmpty = true
        · rw [if_pos hemp] at hauto ⊢
          have hnil : c4.vec = [] := List.isEmpty_iff.mp hemp
          rcases auto_impls_vec_cases ctx (resolved_obligation ctx stack_o) c4 with
            hv | hv | hv <;> rw [hv, hnil] at hauto ⊢
          · simp at hauto
          · simp
          · simp at hauto
        · rw [if_neg hemp] at hauto ⊢
          rcases hchar _ hauto with h3 | ⟨b, hb⟩
          · have h4 := auto_not_added hC3 h3
            simp at h4
          · exact SelectionCandidate.noConfusion hb

/-- Witness for c7_positive_dispatch: the applicable caller bound of c7Ob
appears as a ParamCandidate in the assembled set. -/
theorem c7_witness :
    SelectionCandidate.ParamCandidate ⟨0, 5⟩ ∈
      (⟨[SelectionCandidate.ParamCandidate ⟨0, 5⟩], false⟩ : SelectionCandidateSet).vec :=
  (c7_positive_dispatch baseCtx c7Ob ⟨[.ParamCandidate ⟨0, 5⟩], false⟩ rfl
      (by decide) rfl).1 ⟨0, 5⟩ (by decide) rfl .EvaluatedToOk rfl rfl

/-- C1: whenever the self type is still an unresolved type inference variable
after resolving known bindings, assemble_candidates immediately returns an
ambiguous candidate set with an empty candidate list, for every oracle
context, so no assembler is ever consulted. -/
theorem c1_ty_var_ambiguous (ctx : Ctx) (o : Obligation)
    (h : (ctx.resolve o.predicate).self_ty.is_ty_var = true) :
    assemble_candidates ctx o = .ok ⟨[], true⟩ := by
  unfold assemble_candidates
  simp [resolved_obligation, h]

/-- Witness for c1_ty_var_ambiguous at a concrete context whose resolve
oracle reveals an inference-variable self type. -/
theorem c1_witness : assemble_candidates c1Ctx baseObligation = .ok ⟨[], true⟩ :=
  c1_ty_var_ambiguous c1Ctx baseObligation rfl

/-- C2: when the recursion depth exceeds the limit, candidate_from_obligation
returns Overflow with the cache unchanged and unread (the same result for
every cache), and a subsequent shallower call for a key not in the cache
computes the uncached result fresh and stores it. -/
theorem c2_overflow_bypasses_cache (ctx : Ctx) (o : Obligation)
    (h : ctx.recursion_limit < o.recursion_depth) :
    (∀ cache, candidate_from_obligation ctx cache o =
      (.error (.Overflow .Canonical), cache, ctx.intercrate_ambiguity_causes)) ∧
    (∀ o2 cache, o2.recursion_depth ≤ ctx.recursion_limit →
      check_candidate_cache cache (o2.param_env, ctx.freshen o2.predicate) = none →
      candidate_from_obligation ctx cache o2 =
        ((candidate_from_obligation_no_cache ctx o2).1,
          insert_candidate_cache cache (o2.param_env, ctx.freshen o2.predicate)
            (candidate_from_obligation_no_cache ctx o2).1,
          (candidate_from_obligation_no_cache ctx o2).2)) := by
  constructor
  · intro cache
    unfold candidate_from_obligation check_recursion_limit
    rw [if_pos h]
  · intro o2 cache h1 h2
    unfold candidate_from_obligation check_recursion_limit
    rw [if_neg (by omega)]
    simp only [h2]

/-- Witness for c2_overflow_bypasses_cache: a depth-3 obligation against a
limit of 2 overflows with the empty cache untouched, and a depth-0 call then
computes fresh. -/
theorem c2_witness :
    candidate_from_obligation c2Ctx ⟨[]⟩ c2Ob =
      (.error (.Overflow .Canonical), ⟨[]⟩, none) ∧
    candidate_from_obligation c2Ctx ⟨[]⟩ baseObligation =
      ((candidate_from_obligation_no_cache c2Ctx baseObligation).1,
        insert_candidate_cache ⟨[]⟩
          (baseObligation.param_env, c2Ctx.freshen baseObligation.predicate)
          (candidate_from_obligation_no_cache c2Ctx baseObligation).1,
        (candidate_from_obligation_no_cache c2Ctx baseObligation).2) :=
  ⟨(c2_overflow_bypasses_cache c2Ctx c2Ob (by decide)).1 ⟨[]⟩,
   (c2_overflow_bypasses_cache c2Ctx c2Ob (by decide)).2 baseObligation ⟨[]⟩
     (by decide) rfl⟩

/-- C8: a Destruct obligation that is not const pushes exactly one
ConstDestructCandidate(None) and returns, for every context and every self
type, so the self type's shape is never inspected. -/
theorem c8_non_const_destruct (ctx : Ctx) (o : Obligation) (s : SelectionCandidateSet)
    (h : o.predicate.is_const = false) :
    assemble_const_destruct_candidates ctx o s =
      ⟨s.vec ++ [.ConstDestructCandidate none], s.ambiguous⟩ := by
  unfold assemble_const_destruct_candidates
  simp [h]

/-- Witness for c8_non_const_destruct at the base obligation. -/
theorem c8_witness :
    assemble_const_destruct_candidates baseCtx baseObligation ⟨[], false⟩ =
      ⟨[.ConstDestructCandidate none], false⟩ :=
  c8_non_const_destruct baseCtx baseObligation ⟨[], false⟩ rfl

/-- C10: for an auto-trait obligation on a generator whose trait is the Unpin
lang item, the auto-impl assembler adds nothing when the generator is
immovable and adds an unconditional Builtin candidate without nested
obligations (not an AutoImplCandidate) when it is movable. -/
theorem c10_generator_unpin (ctx : Ctx) (o : Obligation) (s : SelectionCandidateSet)
    (mov : Movability)
    (h1 : ctx.trait_is_auto o.predicate.def_id = true)
    (h2 : ctx.lang_items.unpin_trait = some o.predicate.def_id)
    (h3 : o.predicate.self_ty = .Generator mov) :
    (mov = .Static → assemble_candidates_from_auto_impls ctx o s = s) ∧
    (mov = .Movable → assemble_candidates_from_auto_impls ctx o s =
      ⟨s.vec ++ [.BuiltinCandidate false], s.ambiguous⟩) := by
  unfold assemble_candidates_from_auto_impls
  rw [h3]
  constructor <;> intro hm <;> subst hm <;> simp [h1, h2]

/-- Witness for c10_generator_unpin in both movability modes. -/
theorem c10_witness :
    assemble_candidates_from_auto_impls c10Ctx c10ObStatic ⟨[], false⟩ = ⟨[], false⟩ ∧
    assemble_candidates_from_auto_impls c10Ctx c10ObMovable ⟨[], false⟩ =
      ⟨[.BuiltinCandidate false], false⟩ :=
  ⟨(c10_generator_unpin c10Ctx c10ObStatic ⟨[], false⟩ .Static rfl rfl rfl).1 rfl,
   (c10_generator_unpin c10Ctx c10ObMovable ⟨[], false⟩ .Movable rfl rfl rfl).2 rfl⟩

end CandidateAssembly
